import Mathlib

/-!
Verification development for the HTS-code identifier repository.

Shallow embedding of the core components:
* `services/duty_calculator.py` — rate resolution and landed-cost calculation
  (`DutyCalculator._parse_duty_rate`, `_get_applicable_rate_info`,
  `calculate_landed_cost`);
* `agents/query_agent.py` — question generation and answer filtering
  (`QueryAgent.generate_smart_question`, `filter_candidates_by_answer`);
* `app/api/classify_router.py` + `app/session_store.py` — the session state
  machine (`start_classification`, `post_answer`);
* `utils/preprocessing.py` — the flattening pass (`flatten_hts_with_indent`).

Python floats are modelled as rationals (all constants involved are exactly
representable).  Python strings are modelled through their character lists;
the Python whitespace class is approximated by `Char.isWhitespace`
(space/tab/CR/LF) and the regex classes `\d`/`\w` by their ASCII meaning —
the repository's data (rate strings, ISO country codes) is ASCII.
-/

namespace HtsId

/-- Python `str.strip()` on a character list: drop whitespace from both ends. -/
def pyStrip (cs : List Char) : List Char :=
  ((cs.dropWhile Char.isWhitespace).reverse.dropWhile Char.isWhitespace).reverse

/-- Python `str.strip()` at the `String` level. -/
def pyStripStr (s : String) : String :=
  String.mk (pyStrip s.toList)

/-- Python `str.lower()` on a character list. -/
def pyLower (cs : List Char) : List Char :=
  cs.map Char.toLower

/-- `pat` occurs as a prefix of `l` (Boolean, structurally recursive). -/
def seqPrefixOf : List Char → List Char → Bool
  | [], _ => true
  | _ :: _, [] => false
  | a :: xs, b :: ys => a == b && seqPrefixOf xs ys

/-- `pat` occurs as a contiguous subsequence of `l` (Python's `in` on strings). -/
def seqContains (pat : List Char) : List Char → Bool
  | [] => seqPrefixOf pat []
  | l@(_ :: t) => seqPrefixOf pat l || seqContains pat t

/-- Python `"free" in s.lower()` for a character list `s`. -/
def hasFreeSub (cs : List Char) : Bool :=
  seqContains "free".toList (pyLower cs)

/-- Digit-list value as a natural number (`int` of a digit string). -/
def natVal (ds : List Char) : Nat :=
  ds.foldl (fun n c => n * 10 + (c.toNat - '0'.toNat)) 0

/-- Value of Python `float` applied to `⟨ds⟩.⟨fs⟩` (integer and fraction digits). -/
def ratOfDigits (ds fs : List Char) : ℚ :=
  (natVal ds : ℚ) + (natVal fs : ℚ) / 10 ^ fs.length

/-- ASCII word character (`\w` of Python's `re`, ASCII range). -/
def isWordChar (c : Char) : Bool :=
  c.isAlphanum || c == '_'

/-! ### `DutyCalculator._get_applicable_rate_info` -/

/-- One HTS row as consumed by `DutyCalculator` (`hts_data.get(key, "")`). -/
structure HtsData where
  general_rate_of_duty : String := ""
  special_rate_of_duty : String := ""
  column_2_rate_of_duty : String := ""
deriving DecidableEq

/-- `re.findall(r"\((\w{2})\)", s)`: all parenthesized two-letter word tokens,
scanned left to right without overlap.  The scan consumes at least one
character per step, so running it with `fuel = length` is exact; the fuel
keeps the recursion structural (hence kernel-computable). -/
def findSpecialAux : Nat → List Char → List String
  | 0, _ => []
  | fuel + 1, cs =>
    match cs with
    | '(' :: c1 :: c2 :: ')' :: rest2 =>
      if isWordChar c1 && isWordChar c2 then
        String.mk [c1, c2] :: findSpecialAux fuel rest2
      else
        findSpecialAux fuel (c1 :: c2 :: ')' :: rest2)
    | _ :: rest => findSpecialAux fuel rest
    | [] => []

/-- `re.findall(r"\((\w{2})\)", s)` on a string's characters. -/
def findSpecialCountries (cs : List Char) : List String :=
  findSpecialAux cs.length cs

/-- `DutyCalculator._get_applicable_rate_info`.  The module-level constant
`COLUMN_2_COUNTRIES` (imported from `utils.countries`, a file not present in
the sources) is passed as the explicit parameter `column2Countries`; the spec
describes it only as a fixed "restricted/non-favored" country set. -/
def get_applicable_rate_info (column2Countries : List String) (hts : HtsData)
    (country_iso : String) : String × String :=
  if column2Countries.contains country_iso then
    ("Column 2", hts.column_2_rate_of_duty)
  else
    let special_rate_str := hts.special_rate_of_duty
    let special_countries := findSpecialCountries special_rate_str.toList
    if special_countries.contains country_iso then
      ("Special", special_rate_str)
    else
      ("General", hts.general_rate_of_duty)

/-! ### `DutyCalculator._parse_duty_rate`

The regex searches are embedded as explicit left-to-right scans.  For both
patterns (`(\d+\.?\d*)\s*%` and `(\d+\.?\d*)\s*¢\s*/\s*(\w+)`) greedy matching
without backtracking coincides with the regex semantics: shrinking `\d*` or
skipping `\.?` can never turn a failure into a success, because the characters
that follow must then match `\s*%` (resp. `\s*¢`) yet are digits or a dot.

Digit groups are kept as character lists (`RateScan`) and converted to `ℚ`
only in the final `ParsedRate`, keeping the scanning phase kernel-computable. -/

/-- A number group `(\d+\.?\d*)`: integer digits and (possibly empty) fraction
digits, plus the remaining input. -/
def matchNumGroup (cs : List Char) : Option (List Char × List Char × List Char) :=
  let ds := cs.takeWhile Char.isDigit
  let rest := cs.dropWhile Char.isDigit
  if ds.isEmpty then none
  else
    match rest with
    | '.' :: r => some (ds, r.takeWhile Char.isDigit, r.dropWhile Char.isDigit)
    | _ => some (ds, [], rest)

/-- Try to match `(\d+\.?\d*)\s*%` at the head of the input. -/
def matchPercentAt (cs : List Char) : Option (List Char × List Char) :=
  match matchNumGroup cs with
  | none => none
  | some (ds, fs, rest) =>
    match rest.dropWhile Char.isWhitespace with
    | '%' :: _ => some (ds, fs)
    | _ => none

/-- `re.search` for the percentage pattern: first position where it matches. -/
def searchPercent : List Char → Option (List Char × List Char)
  | [] => matchPercentAt []
  | l@(_ :: t) =>
    match matchPercentAt l with
    | some g => some g
    | none => searchPercent t

/-- Try to match `(\d+\.?\d*)\s*¢\s*/\s*(\w+)` at the head of the input. -/
def matchUnitAt (cs : List Char) : Option (List Char × List Char × String) :=
  match matchNumGroup cs with
  | none => none
  | some (ds, fs, rest) =>
    match rest.dropWhile Char.isWhitespace with
    | '¢' :: r4 =>
      match r4.dropWhile Char.isWhitespace with
      | '/' :: r6 =>
        let r7 := r6.dropWhile Char.isWhitespace
        let ws := r7.takeWhile isWordChar
        if ws.isEmpty then none else some (ds, fs, String.mk ws)
      | _ => none
    | _ => none

/-- `re.search` for the cents-per-unit pattern. -/
def searchUnit : List Char → Option (List Char × List Char × String)
  | [] => matchUnitAt []
  | l@(_ :: t) =>
    match matchUnitAt l with
    | some g => some g
    | none => searchUnit t

/-- Python `float(s)` restricted to the forms occurring in rate strings:
optional sign, digits, optional dot and fraction digits, full-string match.
(Exponent, `inf`/`nan` and underscore forms of the `float` grammar are not
modelled; no rate string uses them.) -/
def pyFloatCore (cs : List Char) : Option ℚ :=
  let ds := cs.takeWhile Char.isDigit
  let rest := cs.dropWhile Char.isDigit
  match rest with
  | [] => if ds.isEmpty then none else some (ratOfDigits ds [])
  | '.' :: r =>
    let fs := r.takeWhile Char.isDigit
    let r2 := r.dropWhile Char.isDigit
    if r2.isEmpty then
      if ds.isEmpty && fs.isEmpty then none else some (ratOfDigits ds fs)
    else none
  | _ => none

/-- Python `float(s)` with the optional sign. -/
def pyFloat (cs : List Char) : Option ℚ :=
  match cs with
  | '+' :: r => pyFloatCore r
  | '-' :: r => (pyFloatCore r).map Neg.neg
  | _ => pyFloatCore cs

/-- Result of `DutyCalculator._parse_duty_rate`. -/
inductive ParsedRate
  | free
  | percentage (rate : ℚ)
  | unit_based (rate : ℚ) (unit : String)
  | unsupported (text : String)
deriving DecidableEq

/-- `DutyCalculator._parse_duty_rate`. -/
def parse_duty_rate (rate_string : String) : ParsedRate :=
  let cs := pyStrip rate_string.toList
  if hasFreeSub cs then
    ParsedRate.free
  else
    match searchPercent cs with
    | some (ds, fs) => ParsedRate.percentage (ratOfDigits ds fs)
    | none =>
      match searchUnit cs with
      | some (ds, fs, u) => ParsedRate.unit_based (ratOfDigits ds fs) u
      | none =>
        match pyFloat cs with
        | some q => ParsedRate.percentage q
        | none => ParsedRate.unsupported (String.mk cs)

/-! ### `DutyCalculator.calculate_landed_cost` -/

/-- The user inputs consumed by `calculate_landed_cost` (`form_data.get(...)`
with its defaults). -/
structure FormData where
  base_value : ℚ := 0
  country_iso : String := ""
  transport_mode : String := "Ocean"
  has_exclusion : Bool := false
  metal_percent : ℚ := 0
deriving DecidableEq

/-- The breakdown returned by `calculate_landed_cost`.  The human-readable
notes carry formatted dollar amounts in Python; here each note is kept as its
fixed leading text only (no claim inspects the formatted numbers). -/
structure CostBreakdown where
  base_value : ℚ
  rate_category : String
  duty_rate_pct : ℚ
  base_duty : ℚ
  metal_surcharge : ℚ
  exclusion_reduction : ℚ
  total_duties : ℚ
  mpf_hmf_fees : ℚ
  landed_cost : ℚ
  calculation_notes : List String

/-- `DutyCalculator.calculate_landed_cost`, with the column-2 country set as
an explicit parameter (see `get_applicable_rate_info`). -/
def calculate_landed_cost (column2Countries : List String) (hts : HtsData)
    (form : FormData) : CostBreakdown :=
  let base_value := form.base_value
  let country_iso := form.country_iso
  let transport_mode := form.transport_mode
  let has_exclusion := form.has_exclusion
  let metal_percent := form.metal_percent
  -- Step 1: determine the applicable duty rate
  let rateInfo := get_applicable_rate_info column2Countries hts country_iso
  let rate_category := rateInfo.1
  let parsed_rate := parse_duty_rate rateInfo.2
  -- Step 2: calculate base duty
  let stepTwo : ℚ × ℚ × List String :=
    match parsed_rate with
    | ParsedRate.percentage r => (base_value * (r / 100), r, [])
    | ParsedRate.free => (0, 0, [])
    | _ => (0, 0, ["unsupported rate type: duty estimated as zero"])
  let base_duty := stepTwo.1
  let duty_rate_pct := stepTwo.2.1
  let notes0 := stepTwo.2.2
  -- Step 3a: metal content adjustment (5% tariff on the metal-content value)
  let metal_surcharge :=
    if metal_percent > 0 then base_value * (metal_percent / 100) * (5 / 100) else 0
  let notes1 :=
    if metal_percent > 0 then notes0 ++ ["metal content surcharge added"] else notes0
  -- Step 3b: exclusion code adjustment (reduce the calculated duty by 50%)
  let exclusion_reduction :=
    if has_exclusion then (base_duty + metal_surcharge) * (50 / 100) else 0
  let notes2 :=
    if has_exclusion then notes1 ++ ["chapter 99 exclusion reduction applied"] else notes1
  let total_duties := base_duty + metal_surcharge - exclusion_reduction
  -- Step 4: MPF/HMF fees by transport mode
  let mpf_hmf : ℚ := if transport_mode = "Ocean" then 48 else 35
  -- Step 5: total landed cost
  let landed_cost := base_value + total_duties + mpf_hmf
  { base_value := base_value
    rate_category := rate_category
    duty_rate_pct := duty_rate_pct
    base_duty := base_duty
    metal_surcharge := metal_surcharge
    exclusion_reduction := exclusion_reduction
    total_duties := total_duties
    mpf_hmf_fees := mpf_hmf
    landed_cost := landed_cost
    calculation_notes := notes2 }

/-! ### `QueryAgent` (`agents/query_agent.py`)

A candidate is one row of the processed table; only the `Spec_Level_i`
columns are consulted by question generation and answer filtering.  The
agent's `spec_cols` (sorted by level number) become the levels `1..numLevels`;
`getSpec c lvl` is the cell of column `Spec_Level_lvl`. -/

/-- One row of the processed CSV, restricted to the specification columns.
`specs.getD 0 ""` is `Spec_Level_1`, and so on; `pd.read_csv(...).fillna("")`
makes every cell a (possibly empty) string. -/
structure Candidate where
  specs : List String
deriving DecidableEq

/-- The cell of candidate `c` at (1-based) spec level `lvl`. -/
def getSpec (c : Candidate) (lvl : Nat) : String :=
  c.specs.getD (lvl - 1) ""

/-- `x.strip() if x else ""` applied to one cell. -/
def trimCell (x : String) : String :=
  if x ≠ "" then pyStripStr x else ""

/-- The transformed series `spec_values` of `generate_smart_question`. -/
def specValuesAt (cands : List Candidate) (lvl : Nat) : List String :=
  cands.map (fun c => trimCell (getSpec c lvl))

/-- First-occurrence deduplication (`pandas.Series.unique`, `Counter` key
order), structurally recursive via a `seen` accumulator. -/
def dedupSeen : List String → List String → List String
  | [], _ => []
  | x :: xs, seen =>
    if seen.contains x then dedupSeen xs seen else x :: dedupSeen xs (x :: seen)

/-- Distinct values of a list in order of first occurrence. -/
def dedupFirst (l : List String) : List String :=
  dedupSeen l []

/-- `unique_values`: distinct non-empty transformed values at `lvl`. -/
def uniqueValuesAt (cands : List Candidate) (lvl : Nat) : List String :=
  (dedupFirst (specValuesAt cands lvl)).filter (fun v => v ≠ "")

/-- Number of occurrences of `v` in `l`. -/
def countOcc (l : List String) (v : String) : Nat :=
  (l.filter (fun y => y == v)).length

/-- `Counter(spec_values[spec_values != ""]).items()`: pairs (value, count)
in order of first occurrence. -/
def valueCountsAt (cands : List Candidate) (lvl : Nat) : List (String × Nat) :=
  let vals := (specValuesAt cands lvl).filter (fun v => v ≠ "")
  (dedupFirst vals).map (fun v => (v, countOcc vals v))

/-- Stable insertion for descending-count order: `p` goes in front of the
first entry whose count does not exceed `p`'s (Python's stable `sorted` with
`reverse=True` on the count key). -/
def insertByCount (p : String × Nat) : List (String × Nat) → List (String × Nat)
  | [] => [p]
  | q :: qs => if q.2 > p.2 then q :: insertByCount p qs else p :: q :: qs

/-- `sorted(value_counts.items(), key=count, reverse=True)` (stable). -/
def sortByCountDesc : List (String × Nat) → List (String × Nat)
  | [] => []
  | p :: ps => insertByCount p (sortByCountDesc ps)

/-- Sum of the counts of a `(value, count)` list. -/
def sumCounts (l : List (String × Nat)) : Nat :=
  (l.map (fun p => p.2)).sum

/-- An option's `filter_value`: `None` (the negation marker of the binary
"No"), a single value, or a list of values ("Other"). -/
inductive FilterVal
  | negation
  | single (v : String)
  | listOf (vs : List String)
deriving DecidableEq

/-- One answer option of a generated question. -/
structure QOption where
  label : String
  filter_value : FilterVal
  expected_count : Nat
deriving DecidableEq

/-- A generated question. -/
structure Question where
  id : Nat
  question : String
  spec_column : Nat
  options : List QOption
deriving DecidableEq

/-- Python `str.capitalize()`: first character upper-cased, rest lower-cased. -/
def pyCapitalize (s : String) : String :=
  match s.toList with
  | [] => ""
  | c :: cs => String.mk (c.toUpper :: cs.map Char.toLower)

/-- `QueryAgent._format_question_text`. -/
def format_question_text (value0 : String) : String :=
  let value := pyStripStr (String.mk (pyLower value0.toList))
  if seqPrefixOf "other".toList value.toList then value
  else if "aeiou".toList.contains (value.toList.headD 'A') then "an " ++ value
  else if ¬ ["purebred", "breeding", "imported", "live"].contains value then "a " ++ value
  else value

/-- `QueryAgent._format_option_text`. -/
def format_option_text (value : String) : String :=
  if value ≠ "" then pyCapitalize (pyStripStr value) else "Not specified"

/-- `QueryAgent._generate_question_text` (the keyword-to-prompt heuristic;
`candidates` only feeds dead code in the source and is not needed). -/
def generate_question_text (lvl : Nat) (values : List String) : String :=
  let values_lower := (values.filter (fun v => v ≠ "")).map
    (fun v => String.mk (pyLower v.toList))
  if values_lower.any (fun v => seqContains "imported".toList v.toList) then
    "What is the import status?"
  else if values_lower.any (fun v =>
      seqContains "purebred".toList v.toList || seqContains "breeding".toList v.toList) then
    "What is the breeding type?"
  else if values_lower.any (fun v =>
      seqContains "male".toList v.toList || seqContains "female".toList v.toList) then
    "What is the gender?"
  else if values_lower.any (fun v => seqContains "live".toList v.toList) then
    "Is it live or processed?"
  else if values_lower.any (fun v =>
      seqContains "whole".toList v.toList || seqContains "cut".toList v.toList ||
      seqContains "pieces".toList v.toList) then
    "What is the form?"
  else if values_lower.any (fun v =>
      seqContains "fresh".toList v.toList || seqContains "frozen".toList v.toList ||
      seqContains "dried".toList v.toList) then
    "What is the preservation method?"
  else if lvl = 1 then "What type of product is it?"
  else if lvl = 2 then "What specific variety?"
  else "Select the specific characteristic:"

/-- The question built once a spec level with more than one counted value is
found (the body of the `if len(value_counts) > 1` block). -/
def buildQuestion (lvl : Nat) (vcs : List (String × Nat)) (uniq : List String) :
    Question :=
  let sorted_values := sortByCountDesc vcs
  if sorted_values.length = 2 then
    let main_value := (sorted_values.headD ("", 0)).1
    { id := 1
      question := "Is it " ++ format_question_text main_value ++ "?"
      spec_column := lvl
      options :=
        [ { label := "Yes", filter_value := FilterVal.single main_value,
            expected_count := (sorted_values.headD ("", 0)).2 },
          { label := "No", filter_value := FilterVal.negation,
            expected_count := sumCounts sorted_values.tail } ] }
  else
    let options :=
      if sorted_values.length > 4 then
        let top_options := sorted_values.take 3
        let other_count := sumCounts (sorted_values.drop 3)
        let base := top_options.map (fun p =>
          { label := format_option_text p.1, filter_value := FilterVal.single p.1,
            expected_count := p.2 : QOption })
        if other_count > 0 then
          base ++ [{ label := "Other",
                     filter_value := FilterVal.listOf ((sorted_values.drop 3).map (fun p => p.1)),
                     expected_count := other_count }]
        else base
      else
        sorted_values.map (fun p =>
          { label := format_option_text p.1, filter_value := FilterVal.single p.1,
            expected_count := p.2 : QOption })
    { id := 1
      question := generate_question_text lvl uniq
      spec_column := lvl
      options := options }

/-- The `for spec_col in self.spec_cols` loop of `generate_smart_question`. -/
def genLoop (cands : List Candidate) : List Nat → Option Question
  | [] => none
  | lvl :: rest =>
    let uniq := uniqueValuesAt cands lvl
    if uniq.length ≤ 1 then genLoop cands rest
    else
      let vcs := valueCountsAt cands lvl
      if vcs.length > 1 then some (buildQuestion lvl vcs uniq)
      else genLoop cands rest

/-- `QueryAgent.generate_smart_question` over spec levels `1..numLevels`. -/
def generate_smart_question (numLevels : Nat) (cands : List Candidate) :
    Option Question :=
  if cands.length ≤ 1 then none
  else genLoop cands ((List.range numLevels).map (fun i => i + 1))

/-- The row predicate applied by `filter_candidates_by_answer`.  In the
negation branch Python compares the raw cell (a string) against the first
option's `filter_value` object, so the cell is equal to it exactly when that
object is the same single string; wrapping the cell in `FilterVal.single`
captures this. -/
def answerKeeps (question : Question) (fv : FilterVal) (c : Candidate) : Bool :=
  match fv with
  | FilterVal.negation =>
    let main_value :=
      (question.options.headD ⟨"", FilterVal.negation, 0⟩).filter_value
    ¬ (FilterVal.single (getSpec c question.spec_column) = main_value)
  | FilterVal.listOf vs => vs.contains (getSpec c question.spec_column)
  | FilterVal.single v => getSpec c question.spec_column == v

/-- `QueryAgent.filter_candidates_by_answer`. -/
def filter_candidates_by_answer (candidates : List Candidate)
    (question : Question) (selected_option : QOption) : List Candidate :=
  candidates.filter (answerKeeps question selected_option.filter_value)

/-! ### Session state machine
(`app/session_store.py`, `app/services/query_service.py`,
`app/api/classify_router.py`)

The session store is a dictionary of `SessionState` records; the router
endpoints are read-modify-write functions on one session.  `created_at`
(wall-clock time) is not modelled; errors (`HTTPException`) become the
`Except` error case, so an error result carries no successor state — exactly
the source's behaviour of raising before any `session_store.update` call. -/

/-- `app.session_store.SessionState` (without `created_at`).  History entries
are `(question text, answer label)` pairs. -/
structure SessionState where
  session_id : String
  candidate_indices : List Nat
  initial_query : String := ""
  current_question : Option Question := none
  question_history : List (String × String) := []
  final_result_index : Option Nat := none
deriving DecidableEq

/-- `QueryService.get_candidates_df`: `df.loc[indices]`, keeping each row's
original index. -/
def get_candidates_with_idx (table : List Candidate) (indices : List Nat) :
    List (Nat × Candidate) :=
  indices.filterMap (fun i => (table.get? i).map (fun c => (i, c)))

/-- `QueryService.get_candidates_df` without the indices. -/
def get_candidates_df (table : List Candidate) (indices : List Nat) :
    List Candidate :=
  (get_candidates_with_idx table indices).map (fun p => p.2)

/-- `QueryService.make_question_for_indices`. -/
def make_question_for_indices (numLevels : Nat) (table : List Candidate)
    (indices : List Nat) : Option Question :=
  generate_smart_question numLevels (get_candidates_df table indices)

/-- The session-creating tail of `start_classification` (prefix and free-text
branches): `session_store.create_session` followed by question generation and
`session_store.update(session_id, current_question=question)` when a question
exists.  `final_result_index` is never set here. -/
def startSession (numLevels : Nat) (table : List Candidate)
    (session_id initial_query : String) (indices : List Nat) : SessionState :=
  let question := make_question_for_indices numLevels table indices
  { session_id := session_id
    candidate_indices := indices
    initial_query := initial_query
    current_question := question
    question_history := []
    final_result_index := none }

/-- `app.schemas.AnswerRequest`: either the label of an option or a filter
value given directly (a string or a list of strings — never the negation
marker, since `None` means "absent" here). -/
inductive ReqFilterVal
  | single (v : String)
  | listOf (vs : List String)
deriving DecidableEq

/-- Lift a request-level filter value to an option filter value. -/
def ReqFilterVal.toFilterVal : ReqFilterVal → FilterVal
  | ReqFilterVal.single v => FilterVal.single v
  | ReqFilterVal.listOf vs => FilterVal.listOf vs

/-- `app.schemas.AnswerRequest` (the session id is resolved by the caller). -/
structure AnswerRequest where
  selected_label : Option String := none
  selected_filter_value : Option ReqFilterVal := none
deriving DecidableEq

/-- The outcome reported by `POST /api/classify/answer`: the final record's
index, the next question, or a preview of the remaining candidates (the
source previews `head(5)` of the narrowed set). -/
inductive AnswerOutcome
  | finalResult (idx : Nat)
  | nextQuestion (q : Question)
  | preview (indices : List Nat)
deriving DecidableEq

/-- Resolving the selected option in `post_answer`: a given
`selected_filter_value` is wrapped as an option dict without validation; a
`selected_label` is looked up among the current question's options (first
match); otherwise the request is rejected.  Returns the label (if any) and
the filter value. -/
def resolveOption (req : AnswerRequest) (question : Question) :
    Except String (Option String × FilterVal) :=
  match req.selected_filter_value with
  | some fv => Except.ok (none, fv.toFilterVal)
  | none =>
    match req.selected_label with
    | some lbl =>
      match question.options.find? (fun o => o.label == lbl) with
      | some o => Except.ok (some o.label, o.filter_value)
      | none => Except.error "Selected option not found"
    | none => Except.error "Provide selected_label or selected_filter_value"

/-- The history label: the option's `label` when present, else Python's
`str(selected_option)` of the label-less dict (kept as a fixed placeholder —
no claim inspects its exact text). -/
def answerLabel (label? : Option String) : String :=
  match label? with
  | some l => l
  | none => "selected_option"

/-- The tail of `post_answer` after the session has been updated with the
narrowed candidate set (`s1.candidate_indices` is `new_indices`): finalize
when exactly one candidate remains, else attach the next question or report a
preview of the first five candidates. -/
def finishAnswer (numLevels : Nat) (table : List Candidate)
    (s1 : SessionState) : SessionState × AnswerOutcome :=
  let new_indices := s1.candidate_indices
  if new_indices.length = 1 then
    let idx := new_indices.headD 0
    ({ s1 with final_result_index := some idx }, AnswerOutcome.finalResult idx)
  else
    match make_question_for_indices numLevels table new_indices with
    | some nq =>
      ({ s1 with current_question := some nq }, AnswerOutcome.nextQuestion nq)
    | none => (s1, AnswerOutcome.preview (new_indices.take 5))

/-- `post_answer` of `app/api/classify_router.py`, for an existing session.
An `Except.error` corresponds to an `HTTPException` raised before any
`session_store.update`, so it carries no successor state. -/
def post_answer (numLevels : Nat) (table : List Candidate) (s : SessionState)
    (req : AnswerRequest) : Except String (SessionState × AnswerOutcome) :=
  match s.current_question with
  | none => Except.error "No active question on this session"
  | some question =>
    match resolveOption req question with
    | Except.error e => Except.error e
    | Except.ok (label?, fv) =>
      let rows := get_candidates_with_idx table s.candidate_indices
      let kept := rows.filter (fun p => answerKeeps question fv p.2)
      let new_indices := kept.map (fun p => p.1)
      let s1 : SessionState :=
        { s with candidate_indices := new_indices
                 question_history :=
                   s.question_history ++ [(question.question, answerLabel label?)]
                 current_question := none }
      Except.ok (finishAnswer numLevels table s1)

/-! ### `flatten_hts_with_indent` (`utils/preprocessing.py`)

The pass walks the raw rows once, keeping a description and a duty/unit entry
per depth `0..max_levels`.  The per-depth arrays are modelled as functions
`Nat → _` (only depths `0..max_levels` are ever written or read: the indent is
clamped into that range and `eff` scans downward from it). -/

/-- One raw CSV row.  `indent` is the result of `int(str(row['Indent']).strip())`
with `None` on failure (the string-to-int parse itself is not modelled); the
other fields are the raw cell texts. -/
structure RawRow where
  hts_number : String := ""
  indent : Option Int := none
  description : String := ""
  general_rate : String := ""
  special_rate : String := ""
  column_2_rate : String := ""
  unit : String := ""
deriving DecidableEq

/-- Clamp an indent into `0..maxLevels`. -/
def clampIndent (maxLevels : Nat) (i : Int) : Nat :=
  if i > (maxLevels : Int) then maxLevels else if i < 0 then 0 else i.toNat

/-- The pending duty/unit values of one depth. -/
structure DutyEntry where
  general : String := ""
  special : String := ""
  column2 : String := ""
  unit : String := ""
deriving DecidableEq

/-- The four inherited rate/unit fields. -/
inductive RateField
  | general
  | special
  | column2
  | unit
deriving DecidableEq

/-- Select one field of a `DutyEntry`. -/
def DutyEntry.sel : DutyEntry → RateField → String
  | e, RateField.general => e.general
  | e, RateField.special => e.special
  | e, RateField.column2 => e.column2
  | e, RateField.unit => e.unit

/-- The raw cell of `row` feeding field `k`, stripped as in the source. -/
def rowField (k : RateField) (r : RawRow) : String :=
  match k with
  | RateField.general => pyStripStr r.general_rate
  | RateField.special => pyStripStr r.special_rate
  | RateField.column2 => pyStripStr r.column_2_rate
  | RateField.unit => pyStripStr r.unit

/-- The walking state: `current_levels` and `duty_per_level`, per depth. -/
structure FlattenState where
  current_levels : Nat → String
  duty_per_level : Nat → DutyEntry

/-- The initial state: every depth empty. -/
def initFlatten : FlattenState :=
  { current_levels := fun _ => "", duty_per_level := fun _ => {} }

/-- `''.join(re.findall(r'\d', str(s))) if s else ''` (ASCII digits). -/
def extractDigits (s : String) : List Char :=
  s.toList.filter Char.isDigit

/-- `eff(key)`: scan depths `indent, indent-1, ..., 0` and return the first
non-empty pending value, else `""`. -/
def effScan (duties : Nat → DutyEntry) (k : RateField) : Nat → String
  | 0 => (duties 0).sel k
  | i + 1 => if (duties (i + 1)).sel k ≠ "" then (duties (i + 1)).sel k
             else effScan duties k i

/-- `eff(key)` including the `indent is None` guard. -/
def eff (duties : Nat → DutyEntry) (indent? : Option Nat) (k : RateField) :
    String :=
  match indent? with
  | none => ""
  | some i => effScan duties k i

/-- One materialized output row (only produced when the HTS number carries at
least 10 digits).  `spec_levels lvl` is the `Spec_Level_lvl` column. -/
structure OutRow where
  hts_number : String
  hts_digits : List Char
  indent : Option Nat
  description : String
  spec_levels : Nat → String
  unit : String
  general_rate : String
  special_rate : String
  column_2_rate : String

/-- The `if indent is not None and desc:` block: rewrite `current_levels` at
the row's depth and clear both deeper levels and deeper pending duties. -/
def updateLevels (st : FlattenState) (indent? : Option Nat) (desc : String) :
    FlattenState :=
  match indent? with
  | some i =>
    if desc ≠ "" then
      { current_levels := fun j =>
          if j = i then desc
          else if i < j then "" else st.current_levels j
        duty_per_level := fun j =>
          if i < j then {} else st.duty_per_level j }
    else st
  | none => st

/-- The `if indent is not None:` block that records this row's non-empty
duty/unit values at its depth. -/
def recordDuties (st1 : FlattenState) (indent? : Option Nat) (row : RawRow) :
    FlattenState :=
  match indent? with
  | some i =>
    { st1 with duty_per_level := fun j =>
        if j = i then
          { general := if rowField RateField.general row ≠ "" then
              rowField RateField.general row else (st1.duty_per_level i).general
            special := if rowField RateField.special row ≠ "" then
              rowField RateField.special row else (st1.duty_per_level i).special
            column2 := if rowField RateField.column2 row ≠ "" then
              rowField RateField.column2 row else (st1.duty_per_level i).column2
            unit := if rowField RateField.unit row ≠ "" then
              rowField RateField.unit row else (st1.duty_per_level i).unit }
        else st1.duty_per_level j }
  | none => st1

/-- The `if len(digits) >= 10:` block: materialize one output row, reading
the (already updated) state. -/
def materialize (st2 : FlattenState) (row : RawRow) (indent? : Option Nat) :
    Option OutRow :=
  let digits := extractDigits row.hts_number
  if 10 ≤ digits.length then
    some { hts_number := row.hts_number
           hts_digits := digits.take 10
           indent := indent?
           description := st2.current_levels 0
           spec_levels := fun lvl => st2.current_levels lvl
           unit := eff st2.duty_per_level indent? RateField.unit
           general_rate := eff st2.duty_per_level indent? RateField.general
           special_rate := eff st2.duty_per_level indent? RateField.special
           column_2_rate := eff st2.duty_per_level indent? RateField.column2 }
  else none

/-- Processing of one raw row: update the hierarchy levels (clearing deeper
descriptions and deeper pending duties when a described row arrives), record
this row's non-empty duty/unit values at its depth, and materialize an output
row when the HTS number has at least 10 digits. -/
def stepRow (maxLevels : Nat) (st : FlattenState) (row : RawRow) :
    FlattenState × Option OutRow :=
  let desc := pyStripStr row.description
  let indent? := row.indent.map (clampIndent maxLevels)
  let st1 := updateLevels st indent? desc
  let st2 := recordDuties st1 indent? row
  (st2, materialize st2 row indent?)

/-- The state after processing a list of raw rows. -/
def flattenStateAfter (maxLevels : Nat) (rows : List RawRow) : FlattenState :=
  rows.foldl (fun st r => (stepRow maxLevels st r).1) initFlatten

/-- The materialized table (`out_rows`) of `flatten_hts_with_indent` (the
later `text` column and empty-column dropping do not touch the four inherited
fields). -/
def flatten_hts_with_indent (maxLevels : Nat) (rows : List RawRow) :
    List OutRow :=
  (rows.foldl
    (fun acc r =>
      let res := stepRow maxLevels acc.1 r
      (res.1, acc.2 ++ (res.2.map (fun o => [o])).getD []))
    (initFlatten, [])).2

/-- Select the materialized field `k` of an output row. -/
def OutRow.field : OutRow → RateField → String
  | o, RateField.general => o.general_rate
  | o, RateField.special => o.special_rate
  | o, RateField.column2 => o.column_2_rate
  | o, RateField.unit => o.unit

/-! ## Claim theorems -/

/-! ### C2 — rate-resolution precedence -/

/-- Claim C2: for every record and target country, membership in the fixed
column-2 country set always yields category "Column 2" with the record's
column-2 rate text (even when the country also occurs as a parenthesized
two-letter token of the special-rate text); otherwise a parenthesized
occurrence in the special-rate text yields "Special"; otherwise "General". -/
theorem claim_C2 (column2Countries : List String) (hts : HtsData)
    (country : String) :
    (country ∈ column2Countries →
      get_applicable_rate_info column2Countries hts country =
        ("Column 2", hts.column_2_rate_of_duty)) ∧
    (country ∉ column2Countries →
      country ∈ findSpecialCountries hts.special_rate_of_duty.toList →
      get_applicable_rate_info column2Countries hts country =
        ("Special", hts.special_rate_of_duty)) ∧
    (country ∉ column2Countries →
      country ∉ findSpecialCountries hts.special_rate_of_duty.toList →
      get_applicable_rate_info column2Countries hts country =
        ("General", hts.general_rate_of_duty)) := by
  have hc2 : column2Countries.contains country = true ↔ country ∈ column2Countries :=
    List.elem_iff
  have hsp : (findSpecialCountries hts.special_rate_of_duty.toList).contains country = true ↔
      country ∈ findSpecialCountries hts.special_rate_of_duty.toList :=
    List.elem_iff
  unfold get_applicable_rate_info
  by_cases h : country ∈ column2Countries
  · rw [if_pos (hc2.mpr h)]
    exact ⟨fun _ => rfl, fun h1 _ => absurd h h1, fun h1 _ => absurd h h1⟩
  · rw [if_neg (fun hb => h (hc2.mp hb))]
    by_cases hs : country ∈ findSpecialCountries hts.special_rate_of_duty.toList
    · rw [if_pos (hsp.mpr hs)]
      exact ⟨fun hm => absurd hm h, fun _ _ => rfl, fun _ hn => absurd hs hn⟩
    · rw [if_neg (fun hb => hs (hsp.mp hb))]
      exact ⟨fun hm => absurd hm h, fun _ hm => absurd hm hs, fun _ _ => rfl⟩

/-- Record used to exercise C2: "CU" is both in the column-2 set and a
parenthesized token of the special-rate text. -/
def c2hts : HtsData :=
  { general_rate_of_duty := "2.5%"
    special_rate_of_duty := "Free (CU)(AU)"
    column_2_rate_of_duty := "20%" }

/-- Witness for C2 at concrete inputs: column-2 wins over a special-program
match for "CU"; "AU" resolves to Special; "MX" to General. -/
theorem claim_C2_witness :
    get_applicable_rate_info ["CU", "KP"] c2hts "CU" = ("Column 2", "20%") ∧
    get_applicable_rate_info ["CU", "KP"] c2hts "AU" = ("Special", "Free (CU)(AU)") ∧
    get_applicable_rate_info ["CU", "KP"] c2hts "MX" = ("General", "2.5%") :=
  ⟨(claim_C2 ["CU", "KP"] c2hts "CU").1 (by decide),
   (claim_C2 ["CU", "KP"] c2hts "AU").2.1 (by decide) (by decide),
   (claim_C2 ["CU", "KP"] c2hts "MX").2.2 (by decide) (by decide)⟩

/-! ### C5 — total duties: no floor at zero -/

/-- Record and form that drive the cost calculator into a negative total:
"-5" is a bare numeric rate string, parsed as a percentage. -/
def c5hts : HtsData := { general_rate_of_duty := "-5" }

/-- Shipment inputs for the C5 counterexample. -/
def c5form : FormData :=
  { base_value := 100, country_iso := "XX", transport_mode := "Air",
    has_exclusion := false, metal_percent := 0 }

/-- Counterexample to C5: with the bare rate "-5" and base value 100 the
returned total duties are -5, which is negative — the code applies no floor
at zero. -/
theorem claim_C5_counterexample :
    (calculate_landed_cost [] c5hts c5form).total_duties = -5 ∧
    ¬ (0 ≤ (calculate_landed_cost [] c5hts c5form).total_duties) := by
  have hinfo : get_applicable_rate_info [] c5hts "XX" = ("General", "-5") := rfl
  have hp : parse_duty_rate "-5" =
      ParsedRate.percentage (-(ratOfDigits ['5'] [])) := rfl
  have hq : ratOfDigits ['5'] [] = 5 := by
    have h5 : natVal ['5'] = 5 := by decide
    have h0 : natVal ([] : List Char) = 0 := rfl
    rw [ratOfDigits, h5, h0]
    norm_num
  simp only [calculate_landed_cost, c5form, hinfo, hp, hq]
  norm_num

/-- Claim C5 as amended: the total duties always equal base duty plus metal
surcharge minus exclusion reduction, with no floor at zero (the sum can be
negative, e.g. for a negative bare-number rate). -/
theorem claim_C5_amended (column2Countries : List String) (hts : HtsData)
    (form : FormData) :
    (calculate_landed_cost column2Countries hts form).total_duties =
      (calculate_landed_cost column2Countries hts form).base_duty +
        (calculate_landed_cost column2Countries hts form).metal_surcharge -
        (calculate_landed_cost column2Countries hts form).exclusion_reduction := rfl

/-! ### C8 — worked cost example -/

/-- Record for the C8 example: percentage rate 5%. -/
def c8hts : HtsData := { general_rate_of_duty := "5%" }

/-- Form for the C8 example: base value 1000, metal percent 0, exclusion
flag set, non-sea transport. -/
def c8form : FormData :=
  { base_value := 1000, country_iso := "XX", transport_mode := "Air",
    has_exclusion := true, metal_percent := 0 }

/-- Claim C8: base value 1000, percentage rate 5%, metal percent 0, exclusion
flag true, non-sea transport gives base duty 50, exclusion reduction 25,
total duties 25, flat fee 35, landed cost 1060. -/
theorem claim_C8 :
    (calculate_landed_cost [] c8hts c8form).base_duty = 50 ∧
    (calculate_landed_cost [] c8hts c8form).exclusion_reduction = 25 ∧
    (calculate_landed_cost [] c8hts c8form).total_duties = 25 ∧
    (calculate_landed_cost [] c8hts c8form).mpf_hmf_fees = 35 ∧
    (calculate_landed_cost [] c8hts c8form).landed_cost = 1060 := by
  have hinfo : get_applicable_rate_info [] c8hts "XX" = ("General", "5%") := rfl
  have hp : parse_duty_rate "5%" =
      ParsedRate.percentage (ratOfDigits ['5'] []) := rfl
  have hq : ratOfDigits ['5'] [] = 5 := by
    have h5 : natVal ['5'] = 5 := by decide
    have h0 : natVal ([] : List Char) = 0 := rfl
    rw [ratOfDigits, h5, h0]
    norm_num
  simp only [calculate_landed_cost, c8form, hinfo, hp, hq]
  norm_num [show ¬ ("Air" : String) = "Ocean" from by decide]

/-! ### Shared lemmas on the answer filter -/

/-- Single-value selector: membership characterization. -/
lemma mem_filter_single (cands : List Candidate) (q : Question) (opt : QOption)
    (c : Candidate) (v : String) (h : opt.filter_value = FilterVal.single v) :
    c ∈ filter_candidates_by_answer cands q opt ↔
      c ∈ cands ∧ getSpec c q.spec_column = v := by
  unfold filter_candidates_by_answer answerKeeps
  rw [h]
  simp [List.mem_filter]

/-- Set selector ("Other"): membership characterization. -/
lemma mem_filter_listOf (cands : List Candidate) (q : Question) (opt : QOption)
    (c : Candidate) (vs : List String) (h : opt.filter_value = FilterVal.listOf vs) :
    c ∈ filter_candidates_by_answer cands q opt ↔
      c ∈ cands ∧ getSpec c q.spec_column ∈ vs := by
  unfold filter_candidates_by_answer answerKeeps
  rw [h]
  simp [List.mem_filter, List.elem_iff]

/-- Negation selector: membership characterization, when the question's first
option carries a single value (as every generated binary question does). -/
lemma mem_filter_negation (cands : List Candidate) (q : Question) (opt : QOption)
    (c : Candidate) (o0 : QOption) (mv : String)
    (h0 : q.options.head? = some o0) (h0v : o0.filter_value = FilterVal.single mv)
    (h : opt.filter_value = FilterVal.negation) :
    c ∈ filter_candidates_by_answer cands q opt ↔
      c ∈ cands ∧ getSpec c q.spec_column ≠ mv := by
  unfold filter_candidates_by_answer answerKeeps
  rw [h]
  have hD : q.options.headD ⟨"", FilterVal.negation, 0⟩ = o0 := by
    cases hqo : q.options with
    | nil => rw [hqo] at h0; exact absurd h0 (by simp)
    | cons a t =>
      rw [hqo] at h0
      simp at h0
      simp [h0]
  rw [hD, h0v]
  simp [List.mem_filter]

/-! ### C4 — the three selector kinds of the answer filter -/

/-- Claim C4: the answer filter keeps exactly the candidates whose value at
the question's spec column (i) differs from the first option's single value
when the selector is the negation marker, (ii) is a member of the selector
list for an "Other" option, and (iii) equals the selector string for a
single-value option. -/
theorem claim_C4 (cands : List Candidate) (q : Question) (opt : QOption)
    (c : Candidate) :
    (∀ o0 mv, q.options.head? = some o0 → o0.filter_value = FilterVal.single mv →
      opt.filter_value = FilterVal.negation →
      (c ∈ filter_candidates_by_answer cands q opt ↔
        c ∈ cands ∧ getSpec c q.spec_column ≠ mv)) ∧
    (∀ vs, opt.filter_value = FilterVal.listOf vs →
      (c ∈ filter_candidates_by_answer cands q opt ↔
        c ∈ cands ∧ getSpec c q.spec_column ∈ vs)) ∧
    (∀ v, opt.filter_value = FilterVal.single v →
      (c ∈ filter_candidates_by_answer cands q opt ↔
        c ∈ cands ∧ getSpec c q.spec_column = v)) :=
  ⟨fun o0 mv h0 h0v h => mem_filter_negation cands q opt c o0 mv h0 h0v h,
   fun vs h => mem_filter_listOf cands q opt c vs h,
   fun v h => mem_filter_single cands q opt c v h⟩

/-- Candidates used to exercise C4. -/
def c4cands : List Candidate := [⟨["A"]⟩, ⟨["B"]⟩, ⟨["C"]⟩]

/-- A question over level 1 whose first option selects "A". -/
def c4q : Question :=
  ⟨1, "Select the specific characteristic:", 1,
   [⟨"A", FilterVal.single "A", 1⟩, ⟨"No", FilterVal.negation, 2⟩,
    ⟨"Other", FilterVal.listOf ["B", "C"], 2⟩]⟩

/-- Witness for C4: each selector kind applied at concrete inputs. -/
theorem claim_C4_witness :
    (⟨["B"]⟩ : Candidate) ∈
      filter_candidates_by_answer c4cands c4q ⟨"No", FilterVal.negation, 2⟩ ∧
    (⟨["B"]⟩ : Candidate) ∈
      filter_candidates_by_answer c4cands c4q ⟨"Other", FilterVal.listOf ["B", "C"], 2⟩ ∧
    (⟨["A"]⟩ : Candidate) ∈
      filter_candidates_by_answer c4cands c4q ⟨"A", FilterVal.single "A", 1⟩ :=
  ⟨((claim_C4 c4cands c4q ⟨"No", FilterVal.negation, 2⟩ ⟨["B"]⟩).1
      ⟨"A", FilterVal.single "A", 1⟩ "A" (by decide) rfl rfl).mpr
      ⟨by decide, by decide⟩,
   ((claim_C4 c4cands c4q ⟨"Other", FilterVal.listOf ["B", "C"], 2⟩ ⟨["B"]⟩).2.1
      ["B", "C"] rfl).mpr ⟨by decide, by decide⟩,
   ((claim_C4 c4cands c4q ⟨"A", FilterVal.single "A", 1⟩ ⟨["A"]⟩).2.2
      "A" rfl).mpr ⟨by decide, by decide⟩⟩

/-! ### C10 — trimmed selectors vs raw comparison -/

/-- Claim C10: option selectors carry trimmed values while the answer filter
compares raw cells, so a candidate whose cell equals the selector only after
stripping whitespace is excluded by the single-value option and retained by
the negation option. -/
theorem claim_C10 (cands : List Candidate) (q : Question) (c : Candidate)
    (hc : c ∈ cands) (v : String)
    (htrim : trimCell (getSpec c q.spec_column) = v)
    (hne : getSpec c q.spec_column ≠ v)
    (opt : QOption) (hopt : opt.filter_value = FilterVal.single v)
    (negOpt : QOption) (hneg : negOpt.filter_value = FilterVal.negation)
    (o0 : QOption) (h0 : q.options.head? = some o0)
    (h0v : o0.filter_value = FilterVal.single v) :
    c ∉ filter_candidates_by_answer cands q opt ∧
    c ∈ filter_candidates_by_answer cands q negOpt :=
  ⟨fun hmem => hne ((mem_filter_single cands q opt c v hopt).mp hmem).2,
   (mem_filter_negation cands q negOpt c o0 v h0 h0v hneg).mpr ⟨hc, hne⟩⟩

/-- Candidates for the C10 witness: the first cell " Live" trims to "Live". -/
def c10cands : List Candidate := [⟨[" Live"]⟩, ⟨["Live"]⟩, ⟨["Processed"]⟩]

/-- The question the generator produces on `c10cands` (binary, trimmed
selector "Live" with expected count 2). -/
def c10q : Question :=
  ⟨1, "Is it live?", 1,
   [⟨"Yes", FilterVal.single "Live", 2⟩, ⟨"No", FilterVal.negation, 1⟩]⟩

/-- Witness for C10: the generator really produces `c10q` on `c10cands`; the
candidate with raw cell " Live" is excluded by "Yes" and retained by "No",
and the "Yes" result is strictly smaller than the option's expected count. -/
theorem claim_C10_witness :
    generate_smart_question 1 c10cands = some c10q ∧
    ((⟨[" Live"]⟩ : Candidate) ∉
        filter_candidates_by_answer c10cands c10q ⟨"Yes", FilterVal.single "Live", 2⟩ ∧
      (⟨[" Live"]⟩ : Candidate) ∈
        filter_candidates_by_answer c10cands c10q ⟨"No", FilterVal.negation, 1⟩) ∧
    (filter_candidates_by_answer c10cands c10q
        ⟨"Yes", FilterVal.single "Live", 2⟩).length < 2 :=
  ⟨by decide,
   claim_C10 c10cands c10q ⟨[" Live"]⟩ (by decide) "Live" (by decide) (by decide)
     ⟨"Yes", FilterVal.single "Live", 2⟩ rfl ⟨"No", FilterVal.negation, 1⟩ rfl
     ⟨"Yes", FilterVal.single "Live", 2⟩ (by decide) rfl,
   by decide⟩

/-! ### Shared lemmas on `finishAnswer` -/

/-- `finishAnswer` never changes the narrowed candidate list. -/
lemma finishAnswer_fst_candidate_indices (n : Nat) (t : List Candidate)
    (s1 : SessionState) :
    (finishAnswer n t s1).1.candidate_indices = s1.candidate_indices := by
  simp only [finishAnswer]
  split
  · rfl
  · split <;> rfl

/-- `finishAnswer` never changes the history written before it. -/
lemma finishAnswer_fst_history (n : Nat) (t : List Candidate)
    (s1 : SessionState) :
    (finishAnswer n t s1).1.question_history = s1.question_history := by
  simp only [finishAnswer]
  split
  · rfl
  · split <;> rfl

/-- On a one-element list `headD 0` is the head. -/
lemma head?_eq_some_headD (l : List Nat) (h : l.length = 1) :
    l.head? = some (l.headD 0) := by
  cases l with
  | nil => simp at h
  | cons a t => simp

/-- When exactly one candidate remains, `finishAnswer` finalizes with it. -/
lemma finishAnswer_final_of_len1 (n : Nat) (t : List Candidate)
    (s1 : SessionState) (h : s1.candidate_indices.length = 1) :
    (finishAnswer n t s1).1.final_result_index = s1.candidate_indices.head? := by
  simp only [finishAnswer]
  rw [if_pos h]
  exact (head?_eq_some_headD _ h).symm

/-! ### C1 — singleton candidate sets and the RESOLVED state -/

/-- Claim C1 as amended: the question generator returns no question for a
one-member candidate set, and a successful answer whose narrowed set has
exactly one member stores that member as the final result index; but at
creation the session never gets a final result index (even for a size-1
initial set), contrary to the original claim. -/
theorem claim_C1 (numLevels : Nat) (cands : List Candidate)
    (hc : cands.length = 1) (table : List Candidate) (s s' : SessionState)
    (req : AnswerRequest) (out : AnswerOutcome)
    (hpost : post_answer numLevels table s req = Except.ok (s', out))
    (hone : s'.candidate_indices.length = 1) (sid query : String)
    (indices : List Nat) :
    generate_smart_question numLevels cands = none ∧
    s'.final_result_index = s'.candidate_indices.head? ∧
    (startSession numLevels table sid query indices).final_result_index = none := by
  refine ⟨by simp [generate_smart_question, hc], ?_, rfl⟩
  simp only [post_answer] at hpost
  split at hpost
  · exact absurd hpost (by simp)
  · split at hpost
    · exact absurd hpost (by simp)
    · injection hpost with hpair
      have h1 : _ = s' := congrArg Prod.fst hpair
      rw [← h1, finishAnswer_fst_candidate_indices] at hone
      rw [← h1, finishAnswer_final_of_len1 _ _ _ hone,
        finishAnswer_fst_candidate_indices]

/-- Package an `Except.ok` of a pair as an existential without unfolding the
pair. -/
lemma exists_ok_pair {epsilon alpha beta : Type} (p : alpha × beta)
    (P : alpha → beta → Prop) (h : P p.1 p.2) :
    ∃ a b, (Except.ok p : Except epsilon (alpha × beta)) = Except.ok (a, b) ∧ P a b :=
  ⟨p.1, p.2, rfl, h⟩

/-- A two-candidate table for the session examples. -/
def c1table : List Candidate := [⟨["Alpha"]⟩, ⟨["Beta"]⟩]

/-- The question the generator produces on `c1table`. -/
def c1q : Question :=
  ⟨1, "What type of product is it?", 1,
   [⟨"Alpha", FilterVal.single "Alpha", 1⟩, ⟨"Beta", FilterVal.single "Beta", 1⟩]⟩

/-- A session awaiting an answer to `c1q`. -/
def c1session : SessionState :=
  ⟨"sid", [0, 1], "horses", some c1q, [], none⟩

/-- The session after answering "Alpha": narrowed to index 0 and finalized. -/
def c1final : SessionState :=
  ⟨"sid", [0], "horses", none, [("What type of product is it?", "Alpha")], some 0⟩

/-- Counterexample to C1 as stated: creating a session from a one-member
candidate set leaves `final_result_index` unset (`None`) — the code never
marks a session resolved at creation. -/
theorem claim_C1_counterexample :
    ([0] : List Nat).length = 1 ∧
    (startSession 1 c1table "sid" "0101" [0]).final_result_index = none :=
  ⟨rfl, rfl⟩

/-- Witness for C1 at concrete inputs: a singleton set yields no question;
answering "Alpha" on `c1session` narrows to one candidate and finalizes it;
creating a session from a singleton set stores no final result index. -/
theorem claim_C1_witness :
    generate_smart_question 1 [(⟨["Solo"]⟩ : Candidate)] = none ∧
    c1final.final_result_index = c1final.candidate_indices.head? ∧
    (startSession 1 c1table "sid2" "0101" [0]).final_result_index = none :=
  claim_C1 1 [⟨["Solo"]⟩] (by decide) c1table c1session c1final
    ⟨some "Alpha", none⟩ (AnswerOutcome.finalResult 0) (by rfl) (by decide)
    "sid2" "0101" [0]

/-! ### C6 — answer validation -/

/-- Claim C6 as amended: an unknown `selected_label` is rejected with a
caller error and no state is produced (the source raises before any store
update); but a `selected_filter_value` is accepted without being validated
against the current question's options, and the session is mutated (its
history grows) even for an arbitrary value present in no option. -/
theorem claim_C6 (numLevels : Nat) (table : List Candidate) (s : SessionState)
    (q : Question) (hq : s.current_question = some q) (lbl : String)
    (hlbl : ∀ o ∈ q.options, o.label ≠ lbl) (fv : ReqFilterVal) :
    post_answer numLevels table s ⟨some lbl, none⟩ =
      Except.error "Selected option not found" ∧
    ∃ s' out, post_answer numLevels table s ⟨none, some fv⟩ = Except.ok (s', out) ∧
      s'.question_history.length = s.question_history.length + 1 := by
  constructor
  · have hfind : q.options.find? (fun o => o.label == lbl) = none := by
      rw [List.find?_eq_none]
      intro o ho
      simpa using hlbl o ho
    simp [post_answer, hq, resolveOption, hfind]
  · simp only [post_answer, hq, resolveOption]
    exact exists_ok_pair _ _ (by rw [finishAnswer_fst_history]; simp)

/-- A session awaiting an answer, used for the C6 examples. -/
def c6session : SessionState :=
  ⟨"s6", [0, 1], "horses", some c1q, [], none⟩

/-- Counterexample to C6 as stated: the request that supplies the arbitrary
filter value "Bogus" — present in no option of the current question — is not
rejected: it succeeds and mutates the session (the candidate set becomes
empty and the history grows) with no validation at all. -/
theorem claim_C6_counterexample :
    (post_answer 1 c1table c6session
        ⟨none, some (ReqFilterVal.single "Bogus")⟩).toOption.map
        (fun p => (p.1.candidate_indices, p.1.question_history.length)) =
      some ([], 1) := by decide

/-- Witness for C6 at concrete inputs: an unknown label is rejected, while
the same unknown value passed as a filter value is accepted and mutates. -/
theorem claim_C6_witness :
    post_answer 1 c1table c6session ⟨some "Bogus", none⟩ =
      Except.error "Selected option not found" ∧
    ∃ s' out, post_answer 1 c1table c6session
        ⟨none, some (ReqFilterVal.single "Bogus")⟩ = Except.ok (s', out) ∧
      s'.question_history.length = c6session.question_history.length + 1 :=
  claim_C6 1 c1table c6session c1q rfl "Bogus" (by decide)
    (ReqFilterVal.single "Bogus")

/-! ### Counting lemmas for C3 -/

/-- Sum of `expected_count` over a question's options. -/
def optionsCountSum (os : List QOption) : Nat :=
  (os.map (fun o => o.expected_count)).sum

lemma sumCounts_cons (p : String × Nat) (l : List (String × Nat)) :
    sumCounts (p :: l) = p.2 + sumCounts l := by
  simp [sumCounts]

lemma sumCounts_insertByCount (p : String × Nat) (l : List (String × Nat)) :
    sumCounts (insertByCount p l) = p.2 + sumCounts l := by
  induction l with
  | nil => rfl
  | cons q qs ih =>
    rw [insertByCount]
    split
    · rw [sumCounts_cons, ih, sumCounts_cons]
      omega
    · rw [sumCounts_cons, sumCounts_cons]

lemma sumCounts_sortByCountDesc (l : List (String × Nat)) :
    sumCounts (sortByCountDesc l) = sumCounts l := by
  induction l with
  | nil => rfl
  | cons p ps ih =>
    rw [sortByCountDesc, sumCounts_insertByCount, ih, sumCounts_cons]

lemma sumCounts_take_drop (l : List (String × Nat)) (n : Nat) :
    sumCounts (l.take n) + sumCounts (l.drop n) = sumCounts l := by
  unfold sumCounts
  rw [← List.sum_append, ← List.map_append, List.take_append_drop]

/-- Entries of `dedupSeen l seen` never come from `seen`. -/
lemma dedupSeen_not_mem_seen :
    ∀ (l seen : List String) (v : String), v ∈ dedupSeen l seen → v ∉ seen := by
  intro l
  induction l with
  | nil =>
    intro seen v hv
    simp [dedupSeen] at hv
  | cons x xs ih =>
    intro seen v hv
    rw [dedupSeen] at hv
    by_cases hx : seen.contains x = true
    · rw [if_pos hx] at hv
      exact ih seen v hv
    · rw [if_neg hx] at hv
      rcases List.mem_cons.mp hv with h | h
      · subst h
        intro hmem
        exact hx (List.elem_iff.mpr hmem)
      · intro hmem
        exact ih (x :: seen) v h (List.mem_cons_of_mem x hmem)

lemma countOcc_cons (x : String) (xs : List String) (v : String) :
    countOcc (x :: xs) v = (if x == v then 1 else 0) + countOcc xs v := by
  unfold countOcc
  rw [List.filter_cons]
  split <;> simp <;> omega

/-- Splitting a count into the occurrences of `x` and the rest. -/
lemma countOcc_filter_split (xs : List String) (x : String)
    (seen : List String) (hx : ¬ seen.contains x = true) :
    countOcc xs x + (xs.filter (fun y => !(x :: seen).contains y)).length =
      (xs.filter (fun y => !seen.contains y)).length := by
  induction xs with
  | nil => rfl
  | cons y ys ih =>
    rw [countOcc_cons, List.filter_cons, List.filter_cons]
    by_cases hyx : (y == x) = true
    · have hy : y = x := by simpa using hyx
      subst hy
      have h2 : y ∉ seen := fun hm => hx (List.elem_iff.mpr hm)
      simp [List.contains_cons, h2] at ih ⊢
      omega
    · have hyne : y ≠ x := fun h => hyx (by simp [h])
      by_cases hc : y ∈ seen
      · simp [List.contains_cons, hyne, hc] at ih ⊢
        omega
      · simp [List.contains_cons, hyne, hc] at ih ⊢
        omega

/-- The counts (over `l`) of the distinct not-yet-seen values of `l` sum to
the number of entries of `l` outside `seen`. -/
lemma sum_countOcc_dedupSeen :
    ∀ (l seen : List String),
      ((dedupSeen l seen).map (fun v => countOcc l v)).sum =
        (l.filter (fun y => !seen.contains y)).length := by
  intro l
  induction l with
  | nil => intro seen; rfl
  | cons x xs ih =>
    intro seen
    rw [dedupSeen, List.filter_cons]
    by_cases hx : (seen.contains x) = true
    · rw [if_pos hx]
      have hmap : (dedupSeen xs seen).map (fun v => countOcc (x :: xs) v) =
          (dedupSeen xs seen).map (fun v => countOcc xs v) := by
        apply List.map_congr_left
        intro v hv
        have hns := dedupSeen_not_mem_seen xs seen v hv
        have hvx : ¬ (x == v) = true := by
          intro hbeq
          exact hns ((by simpa using hbeq : x = v) ▸ List.elem_iff.mp hx)
        rw [countOcc_cons, if_neg hvx]
        omega
      rw [hmap, ih seen]
      have hxm : x ∈ seen := List.elem_iff.mp hx
      simp [hxm]
    · rw [if_neg hx, List.map_cons, List.sum_cons]
      have hmap : (dedupSeen xs (x :: seen)).map (fun v => countOcc (x :: xs) v) =
          (dedupSeen xs (x :: seen)).map (fun v => countOcc xs v) := by
        apply List.map_congr_left
        intro v hv
        have hns := dedupSeen_not_mem_seen xs (x :: seen) v hv
        have hvx : ¬ (x == v) = true := by
          intro hbeq
          exact hns ((by simpa using hbeq : x = v) ▸ List.mem_cons_self x seen)
        rw [countOcc_cons, if_neg hvx]
        omega
      rw [hmap, ih (x :: seen), countOcc_cons]
      have hxm : x ∉ seen := fun hm => hx (List.elem_iff.mpr hm)
      have hsplit := countOcc_filter_split xs x seen hx
      simp [List.contains_cons, hxm] at hsplit ⊢
      omega

/-- The counted pairs of a spec level sum to the number of non-empty trimmed
values at that level. -/
lemma sumCounts_valueCountsAt (cands : List Candidate) (lvl : Nat) :
    sumCounts (valueCountsAt cands lvl) =
      ((specValuesAt cands lvl).filter (fun v => v ≠ "")).length := by
  simp only [valueCountsAt, sumCounts, dedupFirst, List.map_map]
  have h := sum_countOcc_dedupSeen
    ((specValuesAt cands lvl).filter (fun v => v ≠ "")) []
  simpa [Function.comp] using h

/-- `buildQuestion` interrogates the level it was built for. -/
lemma buildQuestion_spec_column (lvl : Nat) (vcs : List (String × Nat))
    (uniq : List String) : (buildQuestion lvl vcs uniq).spec_column = lvl := by
  simp only [buildQuestion]
  split <;> rfl

/-- Mapping the option records back to their counts. -/
lemma map_expected_count_options (l : List (String × Nat)) :
    (l.map (fun p =>
        { label := format_option_text p.1, filter_value := FilterVal.single p.1,
          expected_count := p.2 : QOption })).map
      (fun o => o.expected_count) = l.map (fun p => p.2) := by
  induction l with
  | nil => rfl
  | cons a t ih => simp [ih]

/-- The options of `buildQuestion` carry the full counted total. -/
lemma optionsCountSum_buildQuestion (lvl : Nat) (vcs : List (String × Nat))
    (uniq : List String) :
    optionsCountSum (buildQuestion lvl vcs uniq).options = sumCounts vcs := by
  rw [← sumCounts_sortByCountDesc vcs]
  simp only [buildQuestion]
  split
  · next hlen =>
    cases hs : sortByCountDesc vcs with
    | nil => simp [hs] at hlen
    | cons a t =>
      simp only [optionsCountSum, List.map_cons, List.map_nil, List.sum_cons,
        List.sum_nil, List.headD_cons, List.tail_cons, sumCounts_cons]
      omega
  · split
    · split
      · next hother =>
        simp only [optionsCountSum, List.map_append, List.sum_append,
          map_expected_count_options, List.map_cons, List.map_nil,
          List.sum_cons, List.sum_nil]
        have ht := sumCounts_take_drop (sortByCountDesc vcs) 3
        simp only [sumCounts] at ht ⊢
        omega
      · next hother =>
        simp only [optionsCountSum, map_expected_count_options]
        have ht := sumCounts_take_drop (sortByCountDesc vcs) 3
        simp only [sumCounts] at ht hother ⊢
        omega
    · simp only [optionsCountSum, map_expected_count_options, sumCounts]

/-- Any question produced by the level loop sums its option counts to the
number of non-empty trimmed values at its spec level. -/
lemma genLoop_sum (cands : List Candidate) :
    ∀ (lvls : List Nat) (q : Question), genLoop cands lvls = some q →
      optionsCountSum q.options =
        ((specValuesAt cands q.spec_column).filter (fun v => v ≠ "")).length := by
  intro lvls
  induction lvls with
  | nil =>
    intro q hq
    exact absurd hq (by simp [genLoop])
  | cons lvl rest ih =>
    intro q hq
    simp only [genLoop] at hq
    split at hq
    · exact ih q hq
    · split at hq
      · injection hq with hq
        subst hq
        rw [buildQuestion_spec_column, optionsCountSum_buildQuestion,
          sumCounts_valueCountsAt]
      · exact ih q hq

/-! ### C3 — option counts partition the candidate set -/

/-- Claim C3: whenever the question generator produces a question, the sum of
`expected_count` over all its options equals the number of candidates whose
trimmed value at the question's spec level is non-empty. -/
theorem claim_C3 (numLevels : Nat) (cands : List Candidate) (q : Question)
    (h : generate_smart_question numLevels cands = some q) :
    optionsCountSum q.options =
      (cands.filter (fun c => trimCell (getSpec c q.spec_column) ≠ "")).length := by
  unfold generate_smart_question at h
  split at h
  · exact absurd h (by simp)
  · rw [genLoop_sum cands _ q h]
    unfold specValuesAt
    rw [List.filter_map, List.length_map]
    rfl

/-- Candidates for the C3 witness: five distinct values (so the "Other"
grouping fires) plus an empty and a whitespace-only cell. -/
def c3cands : List Candidate :=
  [⟨["apple"]⟩, ⟨["apple"]⟩, ⟨["banana"]⟩, ⟨["banana"]⟩, ⟨["cherry"]⟩,
   ⟨["date"]⟩, ⟨["elder"]⟩, ⟨[""]⟩, ⟨["  "]⟩]

/-- The question generated on `c3cands` (top three plus "Other"). -/
def c3q : Question :=
  ⟨1, "What type of product is it?", 1,
   [⟨"Apple", FilterVal.single "apple", 2⟩,
    ⟨"Banana", FilterVal.single "banana", 2⟩,
    ⟨"Cherry", FilterVal.single "cherry", 1⟩,
    ⟨"Other", FilterVal.listOf ["date", "elder"], 2⟩]⟩

/-- Witness for C3: on `c3cands` the generator yields `c3q`, and the option
counts sum to the seven candidates with a non-empty trimmed level-1 value. -/
theorem claim_C3_witness :
    generate_smart_question 1 c3cands = some c3q ∧
    optionsCountSum c3q.options =
      (c3cands.filter (fun c => trimCell (getSpec c c3q.spec_column) ≠ "")).length :=
  ⟨by decide, claim_C3 1 c3cands c3q (by decide)⟩

/-! ### Substring lemmas for C7 -/

lemma seqPrefixOf_iff : ∀ (pat l : List Char), seqPrefixOf pat l = true ↔ pat <+: l := by
  intro pat
  induction pat with
  | nil =>
    intro l
    simp [seqPrefixOf]
  | cons a xs ih =>
    intro l
    cases l with
    | nil =>
      simp [seqPrefixOf]
    | cons b ys =>
      rw [seqPrefixOf, Bool.and_eq_true, List.cons_prefix_cons]
      constructor
      · rintro ⟨h1, h2⟩
        exact ⟨by simpa using h1, (ih ys).mp h2⟩
      · rintro ⟨h1, h2⟩
        exact ⟨by simp [h1], (ih ys).mpr h2⟩

lemma seqContains_iff : ∀ (l pat : List Char), seqContains pat l = true ↔ pat <:+: l := by
  intro l
  induction l with
  | nil =>
    intro pat
    rw [seqContains, seqPrefixOf_iff, List.prefix_nil, List.infix_nil]
  | cons c t ih =>
    intro pat
    rw [seqContains, Bool.or_eq_true, seqPrefixOf_iff, ih, List.infix_cons_iff]

/-- A pattern whose head is not the lowering of any whitespace character
survives dropping leading whitespace under `pyLower`. -/
lemma infix_pyLower_dropWhile (x : List Char)
    (hx : ∀ c : Char, Char.isWhitespace c = true →
      ¬ x.head? = some (Char.toLower c)) :
    ∀ l : List Char, x <:+: pyLower l →
      x <:+: pyLower (l.dropWhile Char.isWhitespace) := by
  intro l
  induction l with
  | nil =>
    intro h
    simpa using h
  | cons c t ih =>
    intro h
    rw [List.dropWhile_cons]
    by_cases hc : Char.isWhitespace c = true
    · rw [if_pos hc]
      apply ih
      rcases List.infix_cons_iff.mp (by simpa [pyLower] using h) with hpre | hinf
      · cases hxl : x with
        | nil => exact List.nil_infix
        | cons a x' =>
          rw [hxl] at hpre
          rcases List.cons_prefix_cons.mp hpre with ⟨ha, _⟩
          exact absurd (by simp [hxl, ha]) (hx c hc)
      · exact hinf
    · rw [if_neg hc]
      exact h

/-- An occurrence of "free" (which contains no whitespace) survives `strip`. -/
lemma hasFreeSub_pyStrip (l : List Char) (h : hasFreeSub l = true) :
    hasFreeSub (pyStrip l) = true := by
  have hws : ∀ c : Char, Char.isWhitespace c = true →
      c = ' ' ∨ c = '\t' ∨ c = '\r' ∨ c = '\n' := by
    intro c hc
    have h' : ((c = ' ' ∨ c = '\t') ∨ c = '\r') ∨ c = '\n' := by
      simpa [Char.isWhitespace] using hc
    tauto
  have hfree : ∀ c : Char, Char.isWhitespace c = true →
      ¬ ("free".toList : List Char).head? = some (Char.toLower c) := by
    intro c hc
    rcases hws c hc with h' | h' | h' | h' <;> subst h' <;> decide
  have hfree' : ∀ c : Char, Char.isWhitespace c = true →
      ¬ (("free".toList : List Char).reverse).head? = some (Char.toLower c) := by
    intro c hc
    rcases hws c hc with h' | h' | h' | h' <;> subst h' <;> decide
  unfold hasFreeSub at h ⊢
  rw [seqContains_iff] at h ⊢
  unfold pyStrip
  have h1 : "free".toList <:+: pyLower (l.dropWhile Char.isWhitespace) :=
    infix_pyLower_dropWhile _ hfree l h
  have h2 : ("free".toList).reverse <:+:
      pyLower (l.dropWhile Char.isWhitespace).reverse := by
    rw [pyLower, List.map_reverse]
    exact List.reverse_infix.mpr h1
  have hA := infix_pyLower_dropWhile _ hfree'
    (l.dropWhile Char.isWhitespace).reverse h2
  rw [pyLower, List.map_reverse, ← List.reverse_reverse ("free".toList)]
  exact List.reverse_infix.mpr hA

/-! ### C7 — "free" rate strings -/

/-- Claim C7: any rate string containing "free" (case-insensitively) parses
to the `Free` typed rate — the free check precedes the percentage, the
cents-per-unit and the bare-number parses — and the cost calculator's base
duty is 0 whenever the resolved raw rate contains "free", regardless of the
base value. -/
theorem claim_C7 :
    (∀ s : String, hasFreeSub s.toList = true →
      parse_duty_rate s = ParsedRate.free) ∧
    (∀ (column2Countries : List String) (hts : HtsData) (form : FormData),
      hasFreeSub
        ((get_applicable_rate_info column2Countries hts form.country_iso).2).toList
        = true →
      (calculate_landed_cost column2Countries hts form).base_duty = 0) := by
  have hparse : ∀ s : String, hasFreeSub s.toList = true →
      parse_duty_rate s = ParsedRate.free := by
    intro s h
    simp only [parse_duty_rate]
    rw [if_pos (hasFreeSub_pyStrip _ h)]
  refine ⟨hparse, ?_⟩
  intro c2 hts form h
  simp only [calculate_landed_cost]
  rw [hparse _ h]

/-- Record and form for the C7 witness. -/
def c7hts : HtsData := { general_rate_of_duty := "Free" }

/-- Shipment inputs for the C7 witness: a large base value. -/
def c7form : FormData :=
  { base_value := 12345, country_iso := "XX", transport_mode := "Air",
    has_exclusion := false, metal_percent := 0 }

/-- Witness for C7: "5% free" (which also matches the percentage pattern)
and " Free " both parse to `Free`, and the base duty is 0 at base value
12345. -/
theorem claim_C7_witness :
    parse_duty_rate "5% free" = ParsedRate.free ∧
    parse_duty_rate " Free " = ParsedRate.free ∧
    (calculate_landed_cost [] c7hts c7form).base_duty = 0 :=
  ⟨claim_C7.1 "5% free" (by decide), claim_C7.1 " Free " (by decide),
   claim_C7.2 [] c7hts c7form (by decide)⟩

/-! ### C9 — vertical inheritance in the flattening pass

Specification-side characterization: scanning the processed rows backwards,
the pending value of field `k` at depth `d` is the field of the most recent
row whose clamped indent is exactly `d` with a non-empty stripped value,
unless a more recent row at a strictly shallower depth with a non-empty
description cleared it; a materialized row reports, for each field
independently, the first non-empty pending value at depths
`indent, indent-1, ..., 0`. -/

/-- Backward scan: the pending value of field `k` at depth `d` after
processing the reversed row list. -/
def lastSetRev (maxLevels : Nat) (d : Nat) (k : RateField) :
    List RawRow → String
  | [] => ""
  | r :: rs =>
    match r.indent.map (clampIndent maxLevels) with
    | some i =>
      if i = d ∧ rowField k r ≠ "" then rowField k r
      else if i < d ∧ pyStripStr r.description ≠ "" then ""
      else lastSetRev maxLevels d k rs
    | none => lastSetRev maxLevels d k rs

/-- First non-empty value of `f` at `d, d-1, ..., 0` (else `""`). -/
def nearestNonEmpty (f : Nat → String) : Nat → String
  | 0 => f 0
  | d + 1 => if f (d + 1) ≠ "" then f (d + 1) else nearestNonEmpty f d

lemma emptyDutyEntry_sel (k : RateField) : ({} : DutyEntry).sel k = "" := by
  cases k <;> rfl

/-- Reading a pending duty after the level-update block. -/
lemma updateLevels_duty_sel (st : FlattenState) (indent? : Option Nat)
    (desc : String) (d : Nat) (k : RateField) :
    ((updateLevels st indent? desc).duty_per_level d).sel k =
      match indent? with
      | some i =>
        if i < d ∧ desc ≠ "" then "" else (st.duty_per_level d).sel k
      | none => (st.duty_per_level d).sel k := by
  cases indent? with
  | none => rfl
  | some i =>
    simp only [updateLevels]
    by_cases hdesc : desc ≠ ""
    · rw [if_pos hdesc]
      by_cases hlt : i < d
      · rw [if_pos ⟨hlt, hdesc⟩]
        show (if i < d then ({} : DutyEntry) else st.duty_per_level d).sel k = ""
        rw [if_pos hlt]
        exact emptyDutyEntry_sel k
      · rw [if_neg (fun h => hlt h.1)]
        show (if i < d then ({} : DutyEntry) else st.duty_per_level d).sel k =
          (st.duty_per_level d).sel k
        rw [if_neg hlt]
    · rw [if_neg hdesc, if_neg (fun h => hdesc h.2)]

/-- Reading a pending duty after the duty-recording block. -/
lemma recordDuties_duty_sel (st1 : FlattenState) (indent? : Option Nat)
    (row : RawRow) (d : Nat) (k : RateField) :
    ((recordDuties st1 indent? row).duty_per_level d).sel k =
      match indent? with
      | some i =>
        if d = i then
          (if rowField k row ≠ "" then rowField k row
           else (st1.duty_per_level i).sel k)
        else (st1.duty_per_level d).sel k
      | none => (st1.duty_per_level d).sel k := by
  cases indent? with
  | none => rfl
  | some i =>
    simp only [recordDuties]
    by_cases hdi : d = i
    · rw [if_pos hdi, if_pos hdi]
      cases k <;> rfl
    · rw [if_neg hdi, if_neg hdi]

/-- One step of the walk, read at depth `d` and field `k`. -/
lemma stepRow_duty_sel (maxLevels : Nat) (st : FlattenState) (r : RawRow)
    (d : Nat) (k : RateField) :
    ((stepRow maxLevels st r).1.duty_per_level d).sel k =
      match r.indent.map (clampIndent maxLevels) with
      | some i =>
        if i = d ∧ rowField k r ≠ "" then rowField k r
        else if i < d ∧ pyStripStr r.description ≠ "" then ""
        else (st.duty_per_level d).sel k
      | none => (st.duty_per_level d).sel k := by
  have hstep : (stepRow maxLevels st r).1 =
      recordDuties
        (updateLevels st (r.indent.map (clampIndent maxLevels))
          (pyStripStr r.description))
        (r.indent.map (clampIndent maxLevels)) r := rfl
  rw [hstep]
  cases hi : r.indent.map (clampIndent maxLevels) with
  | none =>
    simp only [recordDuties_duty_sel, updateLevels_duty_sel]
  | some i =>
    simp only [recordDuties_duty_sel, updateLevels_duty_sel]
    by_cases hdi : d = i
    · subst hdi
      rw [if_pos rfl]
      have hnlt : ¬ (d < d ∧ pyStripStr r.description ≠ "") :=
        fun h => Nat.lt_irrefl d h.1
      rw [if_neg hnlt]
      by_cases hrf : rowField k r ≠ ""
      · rw [if_pos hrf, if_pos ⟨rfl, hrf⟩]
      · rw [if_neg hrf, if_neg (fun h => hrf h.2)]
    · rw [if_neg hdi,
        if_neg (show ¬ (i = d ∧ rowField k r ≠ "") from fun h => hdi h.1.symm)]

lemma lastSetRev_cons_some (maxLevels d : Nat) (k : RateField) (r : RawRow)
    (rs : List RawRow) (i : Nat)
    (hi : r.indent.map (clampIndent maxLevels) = some i) :
    lastSetRev maxLevels d k (r :: rs) =
      if i = d ∧ rowField k r ≠ "" then rowField k r
      else if i < d ∧ pyStripStr r.description ≠ "" then ""
      else lastSetRev maxLevels d k rs := by
  rw [lastSetRev, hi]

lemma lastSetRev_cons_none (maxLevels d : Nat) (k : RateField) (r : RawRow)
    (rs : List RawRow)
    (hi : r.indent.map (clampIndent maxLevels) = none) :
    lastSetRev maxLevels d k (r :: rs) = lastSetRev maxLevels d k rs := by
  rw [lastSetRev, hi]

/-- The pending duty array computed by the forward fold agrees with the
backward-scan characterization. -/
lemma flatten_duty_invariant (maxLevels : Nat) (rows : List RawRow)
    (d : Nat) (k : RateField) :
    ((flattenStateAfter maxLevels rows).duty_per_level d).sel k =
      lastSetRev maxLevels d k rows.reverse := by
  induction rows using List.reverseRecOn with
  | nil => exact emptyDutyEntry_sel k
  | append_singleton rows r ih =>
    have hfold : flattenStateAfter maxLevels (rows ++ [r]) =
        (stepRow maxLevels (flattenStateAfter maxLevels rows) r).1 := by
      rw [flattenStateAfter, flattenStateAfter, List.foldl_append]
      rfl
    rw [hfold, stepRow_duty_sel]
    have hrev : (rows ++ [r]).reverse = r :: rows.reverse := by
      simp
    rw [hrev]
    cases hi : r.indent.map (clampIndent maxLevels) with
    | none =>
      rw [lastSetRev_cons_none maxLevels d k r rows.reverse hi]
      exact ih
    | some i =>
      rw [lastSetRev_cons_some maxLevels d k r rows.reverse i hi]
      show (if i = d ∧ rowField k r ≠ "" then rowField k r
        else if i < d ∧ pyStripStr r.description ≠ "" then ""
        else ((flattenStateAfter maxLevels rows).duty_per_level d).sel k) = _
      by_cases h1 : i = d ∧ rowField k r ≠ ""
      · rw [if_pos h1, if_pos h1]
      · rw [if_neg h1, if_neg h1]
        by_cases h2 : i < d ∧ pyStripStr r.description ≠ ""
        · rw [if_pos h2, if_pos h2]
        · rw [if_neg h2, if_neg h2]
          exact ih

/-- The downward scan `eff` is the generic nearest-non-empty scan. -/
lemma effScan_eq_nearestNonEmpty (duties : Nat → DutyEntry) (k : RateField) :
    ∀ i : Nat, effScan duties k i =
      nearestNonEmpty (fun d => (duties d).sel k) i := by
  intro i
  induction i with
  | zero => rfl
  | succ n ih =>
    rw [effScan, nearestNonEmpty, ih]

/-- A row with a parsed indent and a ≥10-digit HTS number materializes, and
each emitted field is the downward scan of the pending duties. -/
lemma stepRow_out (maxLevels : Nat) (st : FlattenState) (r : RawRow) (i : Nat)
    (hind : r.indent.map (clampIndent maxLevels) = some i)
    (hdig : 10 ≤ (extractDigits r.hts_number).length) :
    ∃ out, (stepRow maxLevels st r).2 = some out ∧
      ∀ k : RateField, out.field k =
        effScan ((stepRow maxLevels st r).1.duty_per_level) k i := by
  have hsnd : (stepRow maxLevels st r).2 =
      materialize (stepRow maxLevels st r).1 r (some i) := by
    rw [show (stepRow maxLevels st r).2 =
        materialize (stepRow maxLevels st r).1 r
          (r.indent.map (clampIndent maxLevels)) from rfl, hind]
  rw [hsnd]
  simp only [materialize]
  rw [if_pos hdig]
  refine ⟨_, rfl, fun k => ?_⟩
  cases k <;> rfl

/-- Claim C9: every materialized row reports, for each of the four fields
independently, the value set at the nearest depth at or above its indent on
the current path, with deeper pending values cleared whenever a shallower
described row rewrote the path (the backward-scan characterization
`lastSetRev`). -/
theorem claim_C9 (maxLevels : Nat) (pre : List RawRow) (r : RawRow) (i : Nat)
    (hind : r.indent.map (clampIndent maxLevels) = some i)
    (hdig : 10 ≤ (extractDigits r.hts_number).length) :
    ∃ out, (stepRow maxLevels (flattenStateAfter maxLevels pre) r).2 = some out ∧
      ∀ k : RateField, out.field k =
        nearestNonEmpty
          (fun d => lastSetRev maxLevels d k (r :: pre.reverse)) i := by
  obtain ⟨out, hout, hfield⟩ :=
    stepRow_out maxLevels (flattenStateAfter maxLevels pre) r i hind hdig
  refine ⟨out, hout, fun k => ?_⟩
  rw [hfield k, effScan_eq_nearestNonEmpty]
  have hstep : (stepRow maxLevels (flattenStateAfter maxLevels pre) r).1 =
      flattenStateAfter maxLevels (pre ++ [r]) := by
    rw [flattenStateAfter, flattenStateAfter, List.foldl_append]
    rfl
  have hfun : (fun d =>
      (((stepRow maxLevels (flattenStateAfter maxLevels pre) r).1.duty_per_level
        d).sel k)) =
      fun d => lastSetRev maxLevels d k (r :: pre.reverse) := by
    funext d
    rw [hstep, flatten_duty_invariant]
    have : (pre ++ [r]).reverse = r :: pre.reverse := by simp
    rw [this]
  rw [hfun]

/-- Two hierarchy rows preceding the materialized row of the C9 witness. -/
def c9pre : List RawRow :=
  [{ hts_number := "0101", indent := some 0, description := "Horses",
     general_rate := "Free", special_rate := "", column_2_rate := "20%",
     unit := "" },
   { hts_number := "0101.21", indent := some 1,
     description := "Purebred breeding animals", general_rate := "",
     special_rate := "5% (AU)", column_2_rate := "", unit := "" }]

/-- A ten-digit row at depth 2 inheriting its rates from depths 0 and 1. -/
def c9row : RawRow :=
  { hts_number := "0101.21.00.10", indent := some 2, description := "Males",
    general_rate := "", special_rate := "", column_2_rate := "",
    unit := "No." }

/-- Witness for C9 at concrete inputs: the depth-2 row materializes and each
field matches the backward-scan characterization at its indent. -/
theorem claim_C9_witness :
    ∃ out, (stepRow 10 (flattenStateAfter 10 c9pre) c9row).2 = some out ∧
      ∀ k : RateField, out.field k =
        nearestNonEmpty (fun d => lastSetRev 10 d k (c9row :: c9pre.reverse)) 2 :=
  claim_C9 10 c9pre c9row 2 (by decide) (by decide)

end HtsId
